import Mathlib

/-!
Verification of the request-serving core of the barry web framework
(Go package `core`): route-table construction and first-match routing,
parameter extraction with raw-segment suffix stripping, the disk output
cache and its compressed twin, conditional-request serving, the logic
execution engine (plugin path and compile-and-run subprocess path) and
its error conventions.

Shallow embedding conventions: byte slices are `List Nat`; Go `error`
values are `GoErr`, which keeps both identity (constructors for the
package-level sentinel errors) and the message text; the file system is
a map from path strings to contents; gzip compression and the SHA-256
digest are abstract function parameters (the Go code itself injects the
gzip writer through the `gzipWriterFactory` variable); process and I/O
outcomes are passed in as explicit environment records.  String
primitives are recomputed on the underlying character lists so that
concrete instances reduce inside the kernel.
-/

namespace Barry

/-- Go `strings.HasPrefix s t`, computed on character lists. -/
def strStartsWithL (s t : String) : Bool := t.data.isPrefixOf s.data

/-- Go `strings.HasSuffix s t`, computed on character lists. -/
def strEndsWithL (s t : String) : Bool := t.data.isSuffixOf s.data

/-- Removal of the last `n` characters of a string (the effect of Go
`strings.TrimSuffix` once the suffix is known to be present). -/
def strDropRightL (s : String) (n : Nat) : String :=
  String.mk (s.data.take (s.data.length - n))

/-- Removal of the first `n` characters of a string (Go `part[1:]`). -/
def strDropL (s : String) (n : Nat) : String := String.mk (s.data.drop n)

/-- Go `strings.TrimSuffix`: drop the suffix when present, else unchanged. -/
def trimSuffix (s suf : String) : String :=
  if strEndsWithL s suf then strDropRightL s suf.data.length else s

/-- Helper for `filepath.Ext`: scan the reversed character list for the last
dot of the final slash-separated element; `acc` holds the characters already
passed, in original order. -/
def extScan (acc : List Char) : List Char → List Char
  | [] => []
  | c :: cs => if c = '.' then '.' :: acc else if c = '/' then [] else extScan (c :: acc) cs

/-- Go `path/filepath.Ext`: the suffix beginning at the final dot in the
final slash-separated element of the path; empty when there is no dot. -/
def filepathExt (s : String) : String := String.mk (extScan [] s.data.reverse)

/-- Whether `needle` occurs as a contiguous sublist of the second list
(Go `strings.Contains` on the character lists). -/
def listHasSub [BEq α] (needle : List α) : List α → Bool
  | [] => needle.isEmpty
  | b :: bs => needle.isPrefixOf (b :: bs) || listHasSub needle bs

/-- Go `strings.Contains s pat`. -/
def strContainsSub (s pat : String) : Bool := listHasSub pat.data s.data

/-! Route table (loadRoutes in router.go)

`loadRoutes` walks the `routes` directory tree; every directory holding an
`index.html` or `index.xml` (and not beneath a directory whose base name
starts with `_error`, skipped with `filepath.SkipDir`) yields one route.
Each path part starting with the parameter sentinel `_` becomes the regex
fragment `([^/]+)` and contributes a raw key (the part minus the sentinel)
and a clean key (the raw key with its `filepath.Ext` suffix trimmed);
other parts are matched literally.  We model the compiled anchored regex
as a list of segments and a request path by its slash-split segment list;
literal directory names are assumed free of regex metacharacters, which
the walk produces in practice. -/

/-- One segment of a compiled route pattern: a literal directory name, or
the capturing group emitted for a parameter segment. -/
inductive Seg where
  | lit (s : String)
  | capture
deriving DecidableEq

/-- A directory visited by the `filepath.WalkDir` in `loadRoutes`: its path
parts relative to the routes root, and whether `index.html` / `index.xml`
exist in it. -/
structure RouteDir where
  parts : List String
  hasHTML : Bool
  hasXML : Bool
deriving DecidableEq

/-- The `strings.HasPrefix part underscore` test of the loadRoutes loop. -/
def partIsParam (p : String) : Bool := strStartsWithL p ("_")

/-- The pattern built by the loadRoutes loop, segment by segment. -/
def buildPattern : List String → List Seg
  | [] => []
  | p :: ps => (if partIsParam p then Seg.capture else Seg.lit p) :: buildPattern ps

/-- The `paramRawKeys` accumulation of the loadRoutes loop:
for each parameter part, `rawKey := part[1:]`. -/
def buildRawKeys : List String → List String
  | [] => []
  | p :: ps => if partIsParam p then strDropL p 1 :: buildRawKeys ps else buildRawKeys ps

/-- The `paramKeys` accumulation of the loadRoutes loop:
`cleanKey := strings.TrimSuffix(rawKey, filepath.Ext(rawKey))`. -/
def buildCleanKeys : List String → List String
  | [] => []
  | p :: ps =>
      if partIsParam p then
        trimSuffix (strDropL p 1) (filepathExt (strDropL p 1)) :: buildCleanKeys ps
      else buildCleanKeys ps

/-- A route descriptor (struct `Route` in router.go).  `FilePath` is
`routes/<dirParts joined by slashes>`; the sort comparator in `loadRoutes`
splits that string right back into the walk parts, so we keep the parts
themselves.  The derived `HTMLPath`/`ServerPath` file names play no role in
matching and ordering and are not represented. -/
structure Route where
  pattern : List Seg
  paramKeys : List String
  paramRawKeys : List String
  dirParts : List String
deriving DecidableEq

/-- The route descriptor appended for one qualifying directory. -/
def mkRoute (d : RouteDir) : Route :=
  { pattern := buildPattern d.parts
    paramKeys := buildCleanKeys d.parts
    paramRawKeys := buildRawKeys d.parts
    dirParts := d.parts }

/-- Whether the walk keeps this directory: not inside an `_error` subtree
(the walk returns `filepath.SkipDir` at such a directory, so neither it nor
any descendant is visited) and holding a recognized page file. -/
def qualifiesDir (d : RouteDir) : Bool :=
  !(d.parts.any (fun p => strStartsWithL p ("_error"))) && (d.hasHTML || d.hasXML)

/-- The `isDynamic` closure of the sort comparator: some part carries the
parameter sentinel. -/
def isDynamicParts (parts : List String) : Bool := parts.any partIsParam

/-- `isDynamic` applied to a route's directory parts, as the comparator does
after recovering them from `FilePath`. -/
def isDynRoute (r : Route) : Bool := isDynamicParts r.dirParts

/-- Model of `sort.SliceStable` with the comparator
`less i j = !isDynamic(i) && isDynamic(j)`: for this two-class comparator a
stable sort is exactly the stable partition — the static routes in original
order followed by the dynamic routes in original order. -/
def sortRoutesStable (rs : List Route) : List Route :=
  rs.filter (fun r => !isDynRoute r) ++ rs.filter (fun r => isDynRoute r)

/-- The route table produced by one `loadRoutes` build or rebuild, from the
list of directories the walk visits, in walk order. -/
def loadRoutes (dirs : List RouteDir) : List Route :=
  sortRoutesStable ((dirs.filter qualifiesDir).map mkRoute)

/-! Request matching (ServeHTTP in router.go) -/

/-- Anchored match of a compiled pattern against the slash-split segments of
the trimmed request path: a capturing group matches one nonempty segment
(the fragment emitted for a parameter) and a literal matches exactly.
Returns the captured submatches in order, as `FindStringSubmatch` does. -/
def segsMatch : List Seg → List String → Option (List String)
  | [], [] => some []
  | [], _ :: _ => none
  | _ :: _, [] => none
  | Seg.lit s :: ps, x :: xs => if x = s then segsMatch ps xs else none
  | Seg.capture :: ps, x :: xs =>
      if x = "" then none else (segsMatch ps xs).map (fun caps => x :: caps)

/-- The first-match linear scan of `ServeHTTP` over the route list. -/
def findRoute : List Route → List String → Option (Route × List String)
  | [], _ => none
  | r :: rs, segs =>
      match segsMatch r.pattern segs with
      | some caps => some (r, caps)
      | none => findRoute rs segs

/-- The per-parameter suffix stripping of the `ServeHTTP` match loop:
`ext := filepath.Ext(rawKey)`; when `ext` is nonempty and the captured
value ends with it, the value is `strings.TrimSuffix`-ed by it. -/
def stripRawExt (rawKey value : String) : String :=
  let ext := filepathExt rawKey
  if (ext != "") && strEndsWithL value ext then trimSuffix value ext else value

/-- The params built in the `ServeHTTP` match loop, as an ordered
association list (Go stores the same pairs in a `map[string]string`). -/
def extractParams : List String → List String → List String → List (String × String)
  | key :: keys, raw :: raws, v :: vs => (key, stripRawExt raw v) :: extractParams keys raws vs
  | _, _, _ => []

/-- End to end: find the first matching route and build its parameter map,
as the non-API branch of `ServeHTTP` does for a nonempty path. -/
def matchRequest (routes : List Route) (segs : List String) :
    Option (Route × List (String × String)) :=
  match findRoute routes segs with
  | some (r, caps) => some (r, extractParams r.paramKeys r.paramRawKeys caps)
  | none => none

/-- Specification-side description of the extracted parameters, read off the
directory parts and the path segments directly: each parameter part `p`
contributes the pair of its clean key and the aligned path segment with the
raw key's extension suffix stripped. -/
def routeParamsSpec : List String → List String → List (String × String)
  | p :: ps, x :: xs =>
      if partIsParam p then
        (trimSuffix (strDropL p 1) (filepathExt (strDropL p 1)),
          stripRawExt (strDropL p 1) x) :: routeParamsSpec ps xs
      else routeParamsSpec ps xs
  | _, _ => []

/-! Output cache (cache.go) -/

/-- Configuration (config.go): the fields the router and the cache read. -/
structure Config where
  outputDir : String
  cacheEnabled : Bool
  debugHeaders : Bool
  debugLogs : Bool
deriving DecidableEq

/-- The on-disk state, a map from path to file contents (bytes). -/
def Fs : Type := String → Option (List Nat)

/-- Writing a file: the path now holds the data.  The model renders the
success path of os.WriteFile / os.Create-and-write; the claims about the
cache concern that path (failures surface as errors in the source and leave
the claim's round trip out of reach). -/
def fsWrite (fs : Fs) (p : String) (d : List Nat) : Fs :=
  fun q => if q = p then some d else fs q

/-- filepath.Join of two nonempty clean components. -/
def goJoin (a b : String) : String := a ++ "/" ++ b

/-- SaveCachedHTML (cache.go): default the extension to html, write the
uncompressed entry at outputDir/routeKey/index.ext, and write its
compressed twin at the same path with .gz appended, holding the gzip
writer's output for the same bytes.  The gzip encoder is a parameter, as
the injectable gzipWriterFactory variable is in the source. -/
def SaveCachedHTML (gzw : List Nat → List Nat) (config : Config)
    (routeKey ext : String) (data : List Nat) (fs : Fs) : Fs :=
  let e := if ext = "" then "html" else ext
  let outDir := goJoin config.outputDir routeKey
  let filePath := goJoin outDir ("index." ++ e)
  let gzPath := filePath ++ ".gz"
  fsWrite (fsWrite fs filePath data) gzPath (gzw data)

/-- GetCachedHTML (cache.go): read outputDir/route/index.ext with the same
extension defaulting; a missing file reads as none (ok = false). -/
def GetCachedHTML (config : Config) (route ext : String) (fs : Fs) : Option (List Nat) :=
  let e := if ext = "" then "html" else ext
  fs (goJoin (goJoin config.outputDir route) ("index." ++ e))

/-! Conditional cache serving (serveStatic in router.go) -/

/-- The request fields the cache-serving code reads. -/
structure HttpRequest where
  acceptEncoding : String
  ifNoneMatch : String
deriving DecidableEq

/-- acceptsGzip (router.go): the Accept-Encoding header contains gzip. -/
def acceptsGzip (req : HttpRequest) : Bool := strContainsSub req.acceptEncoding ("gzip")

/-- getFileExt (router.go): filepath.Ext without its dot, defaulting html. -/
def getFileExt (path : String) : String :=
  let ext := filepathExt path
  if ext != "" then strDropL ext 1 else "html"

/-- getContentType (router.go). -/
def getContentType (path : String) : String :=
  if filepathExt path = ".xml" then "application/xml" else "text/html"

/-- generateETag (router.go): a weak ETag quoting the hex digest of the
first eight SHA-256 bytes of the data; the digest is an abstract function
parameter. -/
def generateETag (hashHex : List Nat → String) (data : List Nat) : String :=
  "W/\"" ++ hashHex data ++ "\""

/-- An HTTP response as observable from the cache-serving branch: the
status, the headers set before the body write, and the body bytes. -/
structure HttpResponse where
  status : Nat
  headers : List (String × String)
  body : List Nat
deriving DecidableEq

/-- The cache-hit section of serveStatic (router.go): with caching enabled,
in prod with a gzip-accepting client first try the compressed twin, then in
any case the uncompressed entry, each time validating If-None-Match against
the freshly computed ETag (304 with nothing else written on a hit of the
tag); none means a full miss, falling through to render. -/
def serveCacheLookup (hashHex : List Nat → String) (env : String) (config : Config)
    (fs : Fs) (req : HttpRequest) (htmlPath routeKey : String) : Option HttpResponse :=
  if config.cacheEnabled then
    let cachedFile := goJoin (goJoin config.outputDir routeKey) ("index." ++ getFileExt htmlPath)
    let gzFile := cachedFile ++ ".gz"
    let gzResp : Option HttpResponse :=
      if (env == "prod") && acceptsGzip req then
        match fs gzFile with
        | some data =>
            let etag := generateETag hashHex data
            if req.ifNoneMatch = etag then some ⟨304, [], []⟩
            else
              some ⟨200,
                [("ETag", etag), ("Content-Encoding", "gzip"), ("Vary", "Accept-Encoding"),
                  ("Content-Type", getContentType htmlPath),
                  ("Content-Length", toString data.length)] ++
                  (if config.debugHeaders then [("X-Barry-Cache", "HIT")] else []),
                data⟩
        | none => none
      else none
    match gzResp with
    | some resp => some resp
    | none =>
        match fs cachedFile with
        | some data =>
            let etag := generateETag hashHex data
            if req.ifNoneMatch = etag then some ⟨304, [], []⟩
            else
              some ⟨200,
                [("ETag", etag), ("Content-Type", getContentType htmlPath),
                  ("Content-Length", toString data.length)] ++
                  (if config.debugHeaders then [("X-Barry-Cache", "HIT")] else []),
                data⟩
        | none => none
  else none

/-- The cache entry the amended conditional-serving claim designates: the
compressed twin when the server runs in prod, the client accepts gzip and
the twin exists on disk; otherwise the uncompressed entry.  The flag tells
which of the two cases applies. -/
def specSelectedEntry (env : String) (config : Config) (fs : Fs) (req : HttpRequest)
    (htmlPath routeKey : String) : Option (List Nat × Bool) :=
  let cachedFile := goJoin (goJoin config.outputDir routeKey) ("index." ++ getFileExt htmlPath)
  let gzFile := cachedFile ++ ".gz"
  if (env == "prod") && acceptsGzip req then
    match fs gzFile with
    | some data => some (data, true)
    | none => (fs cachedFile).map (fun d => (d, false))
  else (fs cachedFile).map (fun d => (d, false))

/-! Errors (errors.go) and the logic execution engine
(executor.go, plugin_loader.go) -/

/-- A Go error value: the package-level sentinel errors keep their identity
(Go compares them by pointer), and any other error is just its message. -/
inductive GoErr where
  | notFound
  | pluginNotFound
  | invalidPlugin
  | mk (msg : String)
deriving DecidableEq

/-- The Error() text of each error value: ErrNotFound, ErrPluginNotFound and
ErrInvalidPlugin carry the texts they were constructed with in errors.go,
executor.go and plugin_loader.go. -/
def GoErr.errMsg : GoErr → String
  | .notFound => "barry: not found"
  | .pluginNotFound => "plugin not found"
  | .invalidPlugin => "invalid plugin: missing HandleRequest"
  | .mk m => m

/-- IsNotFoundError (errors.go):
err != nil && err.Error() == ErrNotFound.Error(). -/
def IsNotFoundError : Option GoErr → Bool
  | none => false
  | some e => e.errMsg == GoErr.notFound.errMsg

/-- What looking up HandleRequest in a loaded plugin yields: the symbol is
absent, it has an unexpected type, or it is a handler whose invocation
returns the given (result, error) pair (either side may be nil). -/
inductive PluginLookup (Data : Type) where
  | noSymbol
  | wrongSig
  | handler (res : Option Data) (err : Option GoErr)

/-- The state of the precompiled artifact next to a logic unit: the .so
file is absent (os.Stat fails), plugin.Open fails with some message, or the
plugin loads and behaves as described. -/
inductive PluginState (Data : Type) where
  | noArtifact
  | loadFail (msg : String)
  | loaded (lk : PluginLookup Data)

/-- LoadPluginAndCall (plugin_loader.go), as the (result, error) pair it
returns: a missing artifact returns (nil, nil); an open failure returns the
open error; a missing or ill-typed HandleRequest returns ErrInvalidPlugin;
otherwise the handler's own pair is passed through. -/
def LoadPluginAndCall {Data : Type} : PluginState Data → Option Data × Option GoErr
  | .noArtifact => (none, none)
  | .loadFail m => (none, some (.mk m))
  | .loaded .noSymbol => (none, some .invalidPlugin)
  | .loaded .wrongSig => (none, some .invalidPlugin)
  | .loaded (.handler res err) => (res, err)

/-- ExecuteServerFile (executor.go): call the plugin path; return its error
unless it is the ErrPluginNotFound sentinel (an identity comparison);
return a non-nil result; otherwise fall through to the compile-and-run
subprocess, whose (result, error) outcome is the last argument. -/
def ExecuteServerFile {Data : Type} (ps : PluginState Data)
    (sub : Option Data × Option GoErr) : Option Data × Option GoErr :=
  let lr := LoadPluginAndCall ps
  if lr.2 ≠ none ∧ lr.2 ≠ some GoErr.pluginNotFound then (none, lr.2)
  else
    match lr.1 with
    | some r => (some r, none)
    | none => sub

/-- The sentinel the synthesized runner prints to stderr before exiting
non-zero when the handler returns the not-found error (errorNotFoundMsg in
executor.go). -/
def errorNotFoundMsg : String := "barry-error: barry: not found"

/-- The environment one compile-and-run invocation meets from the point
where the scratch directory path is fixed: whether os.MkdirAll and
os.WriteFile succeed (both are injectable variables in the source), the
child-process outcome (none = exit 0, some text = the process error), the
captured stderr, and the captured stdout.  Failures before MkdirAll
(module resolution, template execution, formatting) happen before any
directory is created and sit outside this model. -/
structure SubprocEnv where
  mkdirOk : Bool
  writeOk : Bool
  runExitErr : Option String
  runStderr : String
  stdout : String

/-- The set of directories present on disk, for tracking the scratch
directory; files inside it are not tracked separately since os.RemoveAll
removes the whole subtree. -/
def DirSet : Type := String → Bool

/-- Effect of os.MkdirAll on the tracked set. -/
def dirAdd (s : DirSet) (p : String) : DirSet := fun q => if q = p then true else s q

/-- Effect of os.RemoveAll on the tracked set. -/
def dirRemove (s : DirSet) (p : String) : DirSet := fun q => if q = p then false else s q

/-- ExecuteServerFileWithSubprocess (executor.go) from MkdirAll onward:
create the scratch directory, write main.go into it — returning early on a
write failure — then run the child process and remove the scratch directory
(the removal sits after cmd.Run, not in a defer), and map the outcome: a
non-zero exit whose stderr contains the not-found sentinel becomes
ErrNotFound; any other non-zero exit becomes an exec error quoting the
process error and the captured stderr; on exit 0 the stdout is JSON-decoded
(the decoder is an abstract parameter).  Returns the Go (result, error)
pair together with the directory state at return. -/
def ExecuteServerFileWithSubprocess {Data : Type} (decode : String → Option Data)
    (env : SubprocEnv) (runDir : String) (dirs : DirSet) :
    (Option Data × Option GoErr) × DirSet :=
  if env.mkdirOk = false then ((none, some (.mk "could not create temp dir")), dirs)
  else
    let dirs1 := dirAdd dirs runDir
    if env.writeOk = false then ((none, some (.mk "could not write temp file")), dirs1)
    else
      let dirs2 := dirRemove dirs1 runDir
      match env.runExitErr with
      | some em =>
          if strContainsSub env.runStderr errorNotFoundMsg then
            ((none, some .notFound), dirs2)
          else
            ((none, some (.mk ("exec error: " ++ em ++ "\nstderr: " ++ env.runStderr))), dirs2)
      | none =>
          match decode env.stdout with
          | some d => ((some d, none), dirs2)
          | none => ((none, some (.mk "json decode error")), dirs2)

/-- How serveStatic treats the (data, error) outcome of ExecuteServerFile:
the distinguished not-found error renders the 404 page through the
renderErrorPage chain, any other error is answered as an internal Server
logic error, and otherwise rendering proceeds with the returned data. -/
inductive ServeOutcome (Data : Type) where
  | renderWith (d : Option Data)
  | notFoundPage
  | serverError (msg : String)

/-- The error dispatch of serveStatic (router.go) after ExecuteServerFile. -/
def dispatchServerResult {Data : Type} (res : Option Data × Option GoErr) :
    ServeOutcome Data :=
  match res.2 with
  | some e =>
      if IsNotFoundError (some e) then ServeOutcome.notFoundPage
      else ServeOutcome.serverError ("Server logic error: " ++ e.errMsg)
  | none => ServeOutcome.renderWith res.1

/-! Asynchronous cache write-back (init and serveStatic in router.go) -/

/-- cacheWriteRequest (router.go); the per-route-key mutex is identified by
the key it was created under (getOrCreateLock routeKey). -/
structure CacheWriteRequest where
  config : Config
  routeKey : String
  html : List Nat
  lockKey : String
  ext : String
deriving DecidableEq

/-- The capacity of the buffered cacheQueue channel. -/
def cacheQueueCapacity : Nat := 100

/-- The request serveStatic builds after a successful render: the rendered
bytes are copied (append onto a nil slice), the lock is the per-route-key
lock, and the extension comes from the page file. -/
def mkCacheWriteRequest (config : Config) (routeKey : String) (html : List Nat)
    (htmlPath : String) : CacheWriteRequest :=
  { config := config, routeKey := routeKey, html := html,
    lockKey := routeKey, ext := getFileExt htmlPath }

/-- The select with a default case over the buffered cacheQueue channel:
the send succeeds exactly when the buffer holds fewer requests than its
capacity, appending the request in arrival order; otherwise the request is
handed back for the immediate detached write. -/
def dispatchCacheWrite (queue : List CacheWriteRequest) (req : CacheWriteRequest) :
    List CacheWriteRequest × Option CacheWriteRequest :=
  if queue.length < cacheQueueCapacity then (queue ++ [req], none) else (queue, some req)

/-- The body of the init worker goroutine for one dequeued request: copy
the bytes and call SaveCachedHTMLFunc with the request's fields while
holding the request's lock. -/
def processCacheWrite (gzw : List Nat → List Nat) (req : CacheWriteRequest) (fs : Fs) : Fs :=
  SaveCachedHTML gzw req.config req.routeKey req.ext req.html fs

/-- The detached immediate write of the full-queue branch: the same call
with the same request fields while holding the same lock. -/
def immediateCacheWrite (gzw : List Nat → List Nat) (req : CacheWriteRequest) (fs : Fs) : Fs :=
  SaveCachedHTML gzw req.config req.routeKey req.ext req.html fs

/-- A static route's compiled pattern matches the route's own literal parts,
with no captures. -/
theorem segsMatch_static_self (parts : List String)
    (h : isDynamicParts parts = false) :
    segsMatch (buildPattern parts) parts = some [] := by
  induction parts with
  | nil => rfl
  | cons p ps ih =>
    simp only [isDynamicParts, List.any_cons, Bool.or_eq_false_iff] at h
    simp only [buildPattern, h.1, Bool.false_eq_true, if_false, segsMatch, if_pos]
    exact ih h.2

/-- Conversely, anything a static pattern matches is the literal part list
itself, and the capture list is empty. -/
theorem segsMatch_static_eq (parts : List String) :
    ∀ segs caps, isDynamicParts parts = false →
      segsMatch (buildPattern parts) segs = some caps → segs = parts ∧ caps = [] := by
  induction parts with
  | nil =>
    intro segs caps _ h
    cases segs with
    | nil => simp only [buildPattern, segsMatch, Option.some.injEq] at h; exact ⟨rfl, h.symm⟩
    | cons x xs => simp [buildPattern, segsMatch] at h
  | cons p ps ih =>
    intro segs caps hstat h
    simp only [isDynamicParts, List.any_cons, Bool.or_eq_false_iff] at hstat
    cases segs with
    | nil => simp [buildPattern, hstat.1, segsMatch] at h
    | cons x xs =>
      simp only [buildPattern, hstat.1, Bool.false_eq_true, if_false, segsMatch] at h
      by_cases hx : x = p
      · rw [if_pos hx] at h
        obtain ⟨h1, h2⟩ := ih xs caps hstat.2 h
        exact ⟨by rw [hx, h1], h2⟩
      · rw [if_neg hx] at h
        cases h

/-- A successful first match came from a successful pattern match of the
returned route. -/
theorem findRoute_matches (routes : List Route) (segs caps : List String) (r : Route) :
    findRoute routes segs = some (r, caps) → segsMatch r.pattern segs = some caps := by
  induction routes with
  | nil => intro h; cases h
  | cons a rest ih =>
    intro h
    simp only [findRoute] at h
    cases hm : segsMatch a.pattern segs with
    | some c => rw [hm] at h; cases h; exact hm
    | none => rw [hm] at h; exact ih h

/-- The scan of an appended route list returns the first list's result when
that one matches. -/
theorem findRoute_append_of_some (A B : List Route) (segs : List String)
    (res : Route × List String) (h : findRoute A segs = some res) :
    findRoute (A ++ B) segs = some res := by
  induction A with
  | nil => cases h
  | cons a as ih =>
    simp only [findRoute] at h
    simp only [List.cons_append, findRoute]
    cases hm : segsMatch a.pattern segs with
    | some c => rw [hm] at h; rw [h]
    | none => rw [hm] at h; exact ih h

/-- In a list of static routes whose patterns were built from their own
directory parts, with a unique route owning the requested parts, the linear
scan returns exactly that route, with no captures. -/
theorem findRoute_first_static (A : List Route) (segs : List String) (r0 : Route)
    (hall : ∀ r ∈ A, isDynRoute r = false ∧ r.pattern = buildPattern r.dirParts)
    (hr0 : r0 ∈ A) (hr0p : r0.dirParts = segs)
    (huniq : ∀ r ∈ A, r.dirParts = segs → r = r0) :
    findRoute A segs = some (r0, []) := by
  induction A with
  | nil => cases hr0
  | cons a as ih =>
    have ha := hall a (List.mem_cons_self a as)
    simp only [findRoute]
    cases hm : segsMatch a.pattern segs with
    | some caps =>
      have hmm : segsMatch (buildPattern a.dirParts) segs = some caps := by
        rw [← ha.2]; exact hm
      obtain ⟨hseg, hcap⟩ := segsMatch_static_eq a.dirParts segs caps ha.1 hmm
      have haeq : a = r0 := huniq a (List.mem_cons_self a as) hseg.symm
      rw [haeq, hcap]
    | none =>
      have hne : r0 ≠ a := by
        intro he
        have hmm : segsMatch a.pattern a.dirParts = some [] := by
          rw [ha.2]; exact segsMatch_static_self a.dirParts ha.1
        have hseg : a.dirParts = segs := by rw [← he]; exact hr0p
        rw [hseg, hm] at hmm
        cases hmm
      have hr0' : r0 ∈ as := by
        cases List.mem_cons.mp hr0 with
        | inl he => exact absurd he hne
        | inr hmem => exact hmem
      exact ih (fun r hr => hall r (List.mem_cons_of_mem a hr)) hr0'
        (fun r hr hp => huniq r (List.mem_cons_of_mem a hr) hp)

/-- C1: after every loadRoutes build, every static route precedes every
dynamic one (stated as a pairwise invariant of the sorted list), and the
first-match scan of ServeHTTP therefore resolves a request path equal to a
static route's literal parts to that static route, never to an overlapping
dynamic pattern. -/
theorem static_routes_shadow_dynamic (dirs : List RouteDir) (d : RouteDir)
    (hnd : (dirs.map RouteDir.parts).Nodup)
    (hmem : d ∈ dirs) (hq : qualifiesDir d = true)
    (hstat : isDynamicParts d.parts = false) :
    (loadRoutes dirs).Pairwise (fun r1 r2 => isDynRoute r1 = true → isDynRoute r2 = true) ∧
    findRoute (loadRoutes dirs) d.parts = some (mkRoute d, []) := by
  have hbase : ∀ r ∈ (dirs.filter qualifiesDir).map mkRoute,
      ∃ d' ∈ dirs, qualifiesDir d' = true ∧ r = mkRoute d' := by
    intro r hr
    obtain ⟨d', hd', hrd⟩ := List.mem_map.mp hr
    exact ⟨d', List.mem_of_mem_filter hd', (List.mem_filter.mp hd').2, hrd.symm⟩
  constructor
  · unfold loadRoutes sortRoutesStable
    refine List.pairwise_append.mpr ⟨?_, ?_, ?_⟩
    · refine List.pairwise_of_forall_mem_list ?_
      intro a hma b _ hdyn
      have : (!isDynRoute a) = true := (List.mem_filter.mp hma).2
      rw [hdyn] at this
      cases this
    · refine List.pairwise_of_forall_mem_list ?_
      intro a _ b hmb _
      exact (List.mem_filter.mp hmb).2
    · intro a _ b hmb _
      exact (List.mem_filter.mp hmb).2
  · unfold loadRoutes sortRoutesStable
    apply findRoute_append_of_some
    apply findRoute_first_static
    · intro r hr
      obtain ⟨d', _, _, hrd⟩ := hbase r (List.mem_of_mem_filter hr)
      refine ⟨?_, by rw [hrd]; rfl⟩
      simpa using (List.mem_filter.mp hr).2
    · apply List.mem_filter.mpr
      refine ⟨List.mem_map.mpr ⟨d, List.mem_filter.mpr ⟨hmem, hq⟩, rfl⟩, ?_⟩
      simp [isDynRoute, mkRoute, hstat]
    · rfl
    · intro r hr hp
      obtain ⟨d', hd', _, hrd⟩ := hbase r (List.mem_of_mem_filter hr)
      have hparts : d'.parts = d.parts := by
        have : r.dirParts = d'.parts := by rw [hrd]; rfl
        rw [← this, hp]
      have : d' = d := List.inj_on_of_nodup_map hnd hd' hmem hparts
      rw [hrd, this]

/-- A nonempty pattern never matches an empty segment list. -/
theorem segsMatch_cons_nil (s : Seg) (ps : List Seg) : segsMatch (s :: ps) [] = none := by
  cases s <;> rfl

/-- The parameter association list computed by the ServeHTTP match loop
coincides with the direct per-segment description: clean key paired with the
aligned captured segment, raw-extension suffix stripped. -/
theorem extractParams_match (parts : List String) :
    ∀ segs caps, segsMatch (buildPattern parts) segs = some caps →
      extractParams (buildCleanKeys parts) (buildRawKeys parts) caps
        = routeParamsSpec parts segs := by
  induction parts with
  | nil => intro segs caps _; rfl
  | cons p ps ih =>
    intro segs caps h
    cases segs with
    | nil =>
      exfalso
      rw [buildPattern, segsMatch_cons_nil] at h
      cases h
    | cons x xs =>
      cases hpp : partIsParam p with
      | true =>
        simp only [buildPattern, hpp, if_true, segsMatch] at h
        by_cases hx : x = ""
        · rw [if_pos hx] at h; cases h
        · rw [if_neg hx] at h
          cases hm : segsMatch (buildPattern ps) xs with
          | none => rw [hm] at h; cases h
          | some caps' =>
            rw [hm] at h
            simp only [Option.map_some', Option.some.injEq] at h
            subst h
            simp only [buildCleanKeys, buildRawKeys, hpp, if_true, extractParams,
              routeParamsSpec]
            rw [ih xs caps' hm]
      | false =>
        simp only [buildPattern, hpp, Bool.false_eq_true, if_false, segsMatch] at h
        by_cases hx : x = p
        · rw [if_pos hx] at h
          simp only [buildCleanKeys, buildRawKeys, hpp, Bool.false_eq_true, if_false,
            routeParamsSpec]
          exact ih xs caps h
        · rw [if_neg hx] at h; cases h

/-- C2: for every matched route, the parameter values passed onward are the
captured URL segments, with the raw segment's file-extension suffix stripped
when the captured value carries it. -/
theorem matched_params_strip_suffix (routes : List Route) (segs : List String)
    (d : RouteDir) (params : List (String × String))
    (h : matchRequest routes segs = some (mkRoute d, params)) :
    params = routeParamsSpec d.parts segs := by
  unfold matchRequest at h
  cases hf : findRoute routes segs with
  | none => rw [hf] at h; cases h
  | some rc =>
    rw [hf] at h
    obtain ⟨r, caps⟩ := rc
    simp only [Option.some.injEq, Prod.mk.injEq] at h
    obtain ⟨hr, hp⟩ := h
    have hm := findRoute_matches routes segs caps r hf
    subst hr
    rw [← hp]
    exact extractParams_match d.parts segs caps hm

/-- C2 witness: the two routes of the spec's example, evaluated end to end:
posts/_id with path posts/42 yields id = 42, and posts/_id.json with path
posts/42.json also yields id = 42, the suffix stripped. -/
theorem matched_params_strip_suffix_witness :
    (matchRequest (loadRoutes [⟨["posts", "_id"], true, false⟩]) ["posts", "42"]
        = some (mkRoute ⟨["posts", "_id"], true, false⟩, [(("id"), ("42"))]) ∧
      [(("id"), ("42"))] = routeParamsSpec ["posts", "_id"] ["posts", "42"]) ∧
    (matchRequest (loadRoutes [⟨["posts", "_id.json"], true, false⟩]) ["posts", "42.json"]
        = some (mkRoute ⟨["posts", "_id.json"], true, false⟩, [(("id"), ("42"))]) ∧
      [(("id"), ("42"))] = routeParamsSpec ["posts", "_id.json"] ["posts", "42.json"]) :=
  ⟨⟨by decide,
      matched_params_strip_suffix (loadRoutes [⟨["posts", "_id"], true, false⟩])
        ["posts", "42"] ⟨["posts", "_id"], true, false⟩ [(("id"), ("42"))] (by decide)⟩,
    ⟨by decide,
      matched_params_strip_suffix (loadRoutes [⟨["posts", "_id.json"], true, false⟩])
        ["posts", "42.json"] ⟨["posts", "_id.json"], true, false⟩ [(("id"), ("42"))]
        (by decide)⟩⟩

/-- C1 witness: a walk that meets the dynamic directory posts/_id before the
static directory posts/list; after sorting, the scan still resolves the
literal path posts/list to the static route, with no captures. -/
theorem static_routes_shadow_dynamic_witness :
    (loadRoutes [⟨["posts", "_id"], true, false⟩, ⟨["posts", "list"], true, false⟩]).Pairwise
        (fun r1 r2 => isDynRoute r1 = true → isDynRoute r2 = true) ∧
    findRoute (loadRoutes [⟨["posts", "_id"], true, false⟩, ⟨["posts", "list"], true, false⟩])
        ["posts", "list"]
      = some (mkRoute ⟨["posts", "list"], true, false⟩, []) :=
  static_routes_shadow_dynamic
    [⟨["posts", "_id"], true, false⟩, ⟨["posts", "list"], true, false⟩]
    ⟨["posts", "list"], true, false⟩ (by decide) (by decide) (by decide) (by decide)

/-- C3: saving then reading back with the same config, route key and
extension returns exactly the saved bytes, and the compressed twin written
alongside decompresses to those same bytes, for every gzip encoder/decoder
pair that round-trips. -/
theorem cache_roundtrip (gzw gunzip : List Nat → List Nat)
    (hinv : ∀ d, gunzip (gzw d) = d) (config : Config) (routeKey ext : String)
    (data : List Nat) (fs : Fs) :
    GetCachedHTML config routeKey ext (SaveCachedHTML gzw config routeKey ext data fs)
        = some data ∧
    SaveCachedHTML gzw config routeKey ext data fs
        (goJoin (goJoin config.outputDir routeKey)
          ("index." ++ (if ext = "" then "html" else ext)) ++ ".gz")
        = some (gzw data) ∧
    gunzip (gzw data) = data := by
  have hlen : (".gz" : String).length = 3 := by decide
  have hne : ∀ s : String, ¬(s = s ++ ".gz") := by
    intro s h
    have h2 := congrArg String.length h
    rw [String.length_append, hlen] at h2
    omega
  refine ⟨?_, ?_, hinv data⟩
  · simp only [GetCachedHTML, SaveCachedHTML, fsWrite]
    simp [hne]
  · simp only [SaveCachedHTML, fsWrite]
    simp

/-- C3 witness at a concrete config, route, bytes and the identity coder. -/
theorem cache_roundtrip_witness :
    GetCachedHTML ⟨("out"), true, false, false⟩ ("posts/42") ("")
        (SaveCachedHTML (fun d => d) ⟨("out"), true, false, false⟩ ("posts/42") ("")
          [10, 20] (fun _ => none))
        = some [10, 20] ∧
    SaveCachedHTML (fun d => d) ⟨("out"), true, false, false⟩ ("posts/42") ("")
        [10, 20] (fun _ => none)
        (goJoin (goJoin ("out") ("posts/42"))
          ("index." ++ (if ("" : String) = "" then "html" else "")) ++ ".gz")
        = some [10, 20] ∧
    ([10, 20] : List Nat) = [10, 20] :=
  cache_roundtrip (fun d => d) (fun d => d) (fun _ => rfl) ⟨("out"), true, false, false⟩
    ("posts/42") ("") [10, 20] (fun _ => none)

/-- C4 counterexample: outside prod (env dev), with caching enabled, a
gzip-accepting client, an existing compressed twin holding bytes 1,2 and an
If-None-Match equal to the ETag computed from those twin bytes, the claim
as stated predicts a 304 with an empty body; the code instead serves the
uncompressed entry (bytes 7) with that entry's ETag, because the code only
consults the compressed twin when env is prod. -/
theorem cache_conditional_counterexample :
    serveCacheLookup (fun d => toString d.length) ("dev")
        ⟨("out"), true, false, false⟩
        (fun p => if p = "out/p/index.html.gz" then some [1, 2]
          else if p = "out/p/index.html" then some [7] else none)
        ⟨("gzip"), generateETag (fun d => toString d.length) [1, 2]⟩
        ("routes/p/index.html") ("p")
      = some ⟨200,
          [(("ETag"), generateETag (fun d => toString d.length) [7]),
            (("Content-Type"), ("text/html")), (("Content-Length"), ("1"))], [7]⟩ ∧
    serveCacheLookup (fun d => toString d.length) ("dev")
        ⟨("out"), true, false, false⟩
        (fun p => if p = "out/p/index.html.gz" then some [1, 2]
          else if p = "out/p/index.html" then some [7] else none)
        ⟨("gzip"), generateETag (fun d => toString d.length) [1, 2]⟩
        ("routes/p/index.html") ("p")
      ≠ some ⟨304, [], []⟩ := by
  constructor <;> decide

/-- C4 amended: with caching enabled, for every request whose route key has
a cached entry — the compressed twin when the server runs in prod, the
client accepts gzip and the twin exists on disk, otherwise the uncompressed
entry — a matching If-None-Match yields a 304 with an empty body and no
headers, and otherwise the entry's bytes are served with status 200 and the
freshly computed ETag header, plus Content-Encoding gzip and Vary
Accept-Encoding in the compressed case. -/
theorem cache_conditional_serving (hashHex : List Nat → String) (env : String)
    (config : Config) (fs : Fs) (req : HttpRequest) (htmlPath routeKey : String)
    (b : List Nat) (g : Bool)
    (hc : config.cacheEnabled = true)
    (hsel : specSelectedEntry env config fs req htmlPath routeKey = some (b, g)) :
    (req.ifNoneMatch = generateETag hashHex b →
      serveCacheLookup hashHex env config fs req htmlPath routeKey
        = some ⟨304, [], []⟩) ∧
    (req.ifNoneMatch ≠ generateETag hashHex b →
      ∃ resp, serveCacheLookup hashHex env config fs req htmlPath routeKey = some resp ∧
        resp.status = 200 ∧ resp.body = b ∧
        (("ETag"), generateETag hashHex b) ∈ resp.headers ∧
        (g = true →
          (("Content-Encoding"), ("gzip")) ∈ resp.headers ∧
          (("Vary"), ("Accept-Encoding")) ∈ resp.headers)) := by
  simp only [specSelectedEntry] at hsel
  simp only [serveCacheLookup, hc, if_true]
  cases hcond : ((env == "prod") && acceptsGzip req) with
  | false =>
      rw [hcond] at hsel
      simp only [Bool.false_eq_true, if_false] at hsel ⊢
      cases hcache : fs (goJoin (goJoin config.outputDir routeKey)
          ("index." ++ getFileExt htmlPath)) with
      | none => rw [hcache] at hsel; cases hsel
      | some data =>
          rw [hcache] at hsel
          simp only [Option.map_some', Option.some.injEq, Prod.mk.injEq] at hsel
          obtain ⟨hb, hg⟩ := hsel
          subst hb
          constructor
          · intro hmatch
            simp [hmatch]
          · intro hmiss
            simp only [if_neg hmiss]
            refine ⟨_, rfl, rfl, rfl, ?_, ?_⟩
            · simp
            · intro hgt; rw [hgt] at hg; cases hg
  | true =>
      rw [hcond] at hsel
      simp only [if_true] at hsel ⊢
      cases hgz : fs (goJoin (goJoin config.outputDir routeKey)
          ("index." ++ getFileExt htmlPath) ++ ".gz") with
      | some data =>
          rw [hgz] at hsel
          simp only [Option.some.injEq, Prod.mk.injEq] at hsel
          obtain ⟨hb, _⟩ := hsel
          subst hb
          constructor
          · intro hmatch
            simp [hmatch]
          · intro hmiss
            simp only [if_neg hmiss]
            refine ⟨_, rfl, rfl, rfl, ?_, fun _ => ⟨?_, ?_⟩⟩ <;> simp
      | none =>
          rw [hgz] at hsel
          simp only at hsel
          cases hcache : fs (goJoin (goJoin config.outputDir routeKey)
              ("index." ++ getFileExt htmlPath)) with
          | none => rw [hcache] at hsel; cases hsel
          | some data =>
              rw [hcache] at hsel
              simp only [Option.map_some', Option.some.injEq, Prod.mk.injEq] at hsel
              obtain ⟨hb, hg⟩ := hsel
              subst hb
              constructor
              · intro hmatch
                simp [hmatch]
              · intro hmiss
                simp only [if_neg hmiss]
                refine ⟨_, rfl, rfl, rfl, ?_, ?_⟩
                · simp
                · intro hgt; rw [hgt] at hg; cases hg

/-- C4 witness: in prod, with a gzip-accepting client, an existing twin and
a matching If-None-Match, the served response is 304 with an empty body. -/
theorem cache_conditional_serving_witness :
    serveCacheLookup (fun d => toString d.length) ("prod")
        ⟨("out"), true, false, false⟩
        (fun p => if p = "out/p/index.html.gz" then some [1, 2]
          else if p = "out/p/index.html" then some [7] else none)
        ⟨("gzip"), generateETag (fun d => toString d.length) [1, 2]⟩
        ("routes/p/index.html") ("p")
      = some ⟨304, [], []⟩ :=
  (cache_conditional_serving (fun d => toString d.length) ("prod")
      ⟨("out"), true, false, false⟩
      (fun p => if p = "out/p/index.html.gz" then some [1, 2]
        else if p = "out/p/index.html" then some [7] else none)
      ⟨("gzip"), generateETag (fun d => toString d.length) [1, 2]⟩
      ("routes/p/index.html") ("p") [1, 2] true rfl (by decide)).1 (by decide)

/-- An exec-error message never equals the not-found text: the two strings
differ already in their first character. -/
theorem execError_ne_notFound (x y z : String) :
    ("exec error: " ++ x ++ y ++ z) ≠ "barry: not found" := by
  intro h
  have h1 := congrArg String.data h
  simp only [String.data_append, List.cons_append] at h1
  injection h1 with h4 h5
  exact absurd h4 (by decide)

/-- C5: a non-zero child-process exit whose captured stderr contains the
not-found sentinel makes the engine return the distinguished ErrNotFound,
which the router's dispatch turns into the 404 error page, not a 500; every
other non-zero exit yields the generic exec error quoting the captured
diagnostic text, answered as a 500 Server logic error. -/
theorem sentinel_not_found_maps_to_404 {Data : Type} (decode : String → Option Data)
    (env : SubprocEnv) (runDir : String) (dirs : DirSet) (em : String)
    (hmk : env.mkdirOk = true) (hwr : env.writeOk = true)
    (hexit : env.runExitErr = some em) :
    (strContainsSub env.runStderr errorNotFoundMsg = true →
      (ExecuteServerFileWithSubprocess decode env runDir dirs).1
          = (none, some GoErr.notFound) ∧
      dispatchServerResult ((none, some GoErr.notFound) : Option Data × Option GoErr)
          = ServeOutcome.notFoundPage) ∧
    (strContainsSub env.runStderr errorNotFoundMsg = false →
      (ExecuteServerFileWithSubprocess decode env runDir dirs).1
          = (none, some (GoErr.mk ("exec error: " ++ em ++ "\nstderr: " ++ env.runStderr))) ∧
      dispatchServerResult
          ((none, some (GoErr.mk ("exec error: " ++ em ++ "\nstderr: " ++ env.runStderr)))
            : Option Data × Option GoErr)
          = ServeOutcome.serverError
              ("Server logic error: "
                ++ ("exec error: " ++ em ++ "\nstderr: " ++ env.runStderr))) := by
  constructor
  · intro hsent
    constructor
    · simp [ExecuteServerFileWithSubprocess, hmk, hwr, hexit, hsent]
    · rfl
  · intro hsent
    constructor
    · simp [ExecuteServerFileWithSubprocess, hmk, hwr, hexit, hsent]
    · have hne : (GoErr.mk ("exec error: " ++ em ++ "\nstderr: " ++ env.runStderr)).errMsg
          ≠ "barry: not found" := execError_ne_notFound em ("\nstderr: ") env.runStderr
      simp only [dispatchServerResult, IsNotFoundError]
      rw [if_neg (by simpa using hne)]
      rfl

/-- C5 witness: a concrete non-zero exit with the sentinel on stderr is
answered by the 404 page; the same exit with plain diagnostics becomes a
500 Server logic error carrying the text. -/
theorem sentinel_not_found_maps_to_404_witness :
    ((ExecuteServerFileWithSubprocess (fun _ => (none : Option Nat))
          ⟨true, true, some ("exit status 1"), ("barry-error: barry: not found"), ("")⟩
          (".barry-tmp/ab") (fun _ => false)).1
        = (none, some GoErr.notFound) ∧
      dispatchServerResult ((none, some GoErr.notFound) : Option Nat × Option GoErr)
        = ServeOutcome.notFoundPage) :=
  (sentinel_not_found_maps_to_404 (fun _ => (none : Option Nat))
      ⟨true, true, some ("exit status 1"), ("barry-error: barry: not found"), ("")⟩
      (".barry-tmp/ab") (fun _ => false) ("exit status 1") rfl rfl rfl).1 (by decide)

/-- C6: a missing precompiled artifact is not an error — ExecuteServerFile
falls through to the compile-and-run subprocess outcome — while a loaded
artifact whose HandleRequest is missing or has an unexpected signature
yields ErrInvalidPlugin, with no fall-through, whatever the subprocess
would have produced. -/
theorem plugin_missing_falls_through {Data : Type} (sub : Option Data × Option GoErr) :
    ExecuteServerFile PluginState.noArtifact sub = sub ∧
    ExecuteServerFile (PluginState.loaded PluginLookup.noSymbol) sub
        = (none, some GoErr.invalidPlugin) ∧
    ExecuteServerFile (PluginState.loaded PluginLookup.wrongSig) sub
        = (none, some GoErr.invalidPlugin) := by
  refine ⟨?_, ?_, ?_⟩ <;> simp [ExecuteServerFile, LoadPluginAndCall]

/-- C10: a loaded, well-typed handler that returns a nil result map and a
nil error is treated exactly like a missing artifact: ExecuteServerFile
falls through to the subprocess outcome, so the handler's nil result is
never returned to the router as the render data. -/
theorem plugin_nil_result_falls_through {Data : Type} (sub : Option Data × Option GoErr) :
    ExecuteServerFile (PluginState.loaded (PluginLookup.handler none none)) sub = sub ∧
    ExecuteServerFile (PluginState.loaded (PluginLookup.handler none none)) sub
        = ExecuteServerFile PluginState.noArtifact sub := by
  refine ⟨?_, ?_⟩ <;> simp [ExecuteServerFile, LoadPluginAndCall]

/-- C7: a successful render's cache write is never lost: the dispatch either
appends the request to the bounded queue (exactly when it is below its
capacity of 100) or hands back the very same request for the immediate
detached write; the request carries the rendered bytes under the
per-route-key lock, and the worker body and the immediate branch perform
the identical single SaveCachedHTML call with those bytes. -/
theorem cache_write_not_lost (config : Config) (routeKey : String) (html : List Nat)
    (htmlPath : String) (queue : List CacheWriteRequest) :
    ((queue.length < cacheQueueCapacity ∧
        dispatchCacheWrite queue (mkCacheWriteRequest config routeKey html htmlPath)
          = (queue ++ [mkCacheWriteRequest config routeKey html htmlPath], none)) ∨
      (cacheQueueCapacity ≤ queue.length ∧
        dispatchCacheWrite queue (mkCacheWriteRequest config routeKey html htmlPath)
          = (queue, some (mkCacheWriteRequest config routeKey html htmlPath)))) ∧
    (mkCacheWriteRequest config routeKey html htmlPath).lockKey = routeKey ∧
    (mkCacheWriteRequest config routeKey html htmlPath).html = html ∧
    (∀ gzw fs,
      processCacheWrite gzw (mkCacheWriteRequest config routeKey html htmlPath) fs
          = immediateCacheWrite gzw (mkCacheWriteRequest config routeKey html htmlPath) fs ∧
      processCacheWrite gzw (mkCacheWriteRequest config routeKey html htmlPath) fs
          = SaveCachedHTML gzw config routeKey (getFileExt htmlPath) html fs) := by
  refine ⟨?_, rfl, rfl, fun gzw fs => ⟨rfl, rfl⟩⟩
  by_cases h : queue.length < cacheQueueCapacity
  · exact Or.inl ⟨h, by simp [dispatchCacheWrite, h]⟩
  · exact Or.inr ⟨Nat.le_of_not_lt h, by simp [dispatchCacheWrite, h]⟩

/-- C8 counterexample: when writing the synthesized source file fails after
the scratch directory was created, ExecuteServerFileWithSubprocess returns
early with the directory still present — the removal sits after cmd.Run,
not in a defer, so this intermediate failure path skips it. -/
theorem scratch_dir_leak_on_write_failure :
    ((ExecuteServerFileWithSubprocess (fun _ => (none : Option Nat))
          ⟨true, false, none, (""), ("")⟩ (".barry-tmp/ab12") (fun _ => false)).2)
        (".barry-tmp/ab12") = true ∧
    (ExecuteServerFileWithSubprocess (fun _ => (none : Option Nat))
          ⟨true, false, none, (""), ("")⟩ (".barry-tmp/ab12") (fun _ => false)).1
        = (none, some (GoErr.mk ("could not write temp file"))) := by
  constructor <;> rfl

/-- C8 amended: the scratch directory is removed before return on every
path that reaches the child process — success, non-zero exit and decode
failure alike, i.e. whenever the synthesized source was written
successfully — and a MkdirAll failure leaves the directory state untouched;
but when writing the synthesized source fails, the function returns with
the just-created directory still present. -/
theorem scratch_dir_removed_after_run {Data : Type} (decode : String → Option Data)
    (env : SubprocEnv) (runDir : String) (dirs : DirSet)
    (hmk : env.mkdirOk = true) (hwr : env.writeOk = true) :
    (ExecuteServerFileWithSubprocess decode env runDir dirs).2
        = dirRemove (dirAdd dirs runDir) runDir ∧
    (ExecuteServerFileWithSubprocess decode env runDir dirs).2 runDir = false := by
  have hmain : (ExecuteServerFileWithSubprocess decode env runDir dirs).2
      = dirRemove (dirAdd dirs runDir) runDir := by
    simp only [ExecuteServerFileWithSubprocess, hmk, hwr]
    cases env.runExitErr with
    | some em =>
        by_cases hsent : strContainsSub env.runStderr errorNotFoundMsg = true
        · simp [hsent]
        · simp [hsent]
    | none =>
        cases decode env.stdout with
        | some d => simp
        | none => simp
  refine ⟨hmain, ?_⟩
  rw [hmain]
  simp [dirRemove]

/-- C8 amended witness: a successful concrete run leaves no scratch
directory behind. -/
theorem scratch_dir_removed_after_run_witness :
    (ExecuteServerFileWithSubprocess (fun _ => some (0 : Nat))
          ⟨true, true, none, (""), ("ok")⟩ (".barry-tmp/cd34") (fun _ => false)).2
        = dirRemove (dirAdd (fun _ => false) (".barry-tmp/cd34")) (".barry-tmp/cd34") ∧
    (ExecuteServerFileWithSubprocess (fun _ => some (0 : Nat))
          ⟨true, true, none, (""), ("ok")⟩ (".barry-tmp/cd34") (fun _ => false)).2
        (".barry-tmp/cd34") = false :=
  scratch_dir_removed_after_run (fun _ => some (0 : Nat))
    ⟨true, true, none, (""), ("ok")⟩ (".barry-tmp/cd34") (fun _ => false) rfl rfl

/-- C9: IsNotFoundError keys on the message text alone, not on the identity
of the error value: nil is rejected, and a non-nil error is accepted exactly
when its Error() text is the not-found text — including an error fabricated
by a handler with that text — and rejected for every other message. -/
theorem isNotFoundError_by_message (e : GoErr) :
    IsNotFoundError none = false ∧
    IsNotFoundError (some e) = (e.errMsg == "barry: not found") ∧
    (e.errMsg ≠ "barry: not found" → IsNotFoundError (some e) = false) ∧
    IsNotFoundError (some (GoErr.mk ("barry: not found"))) = true ∧
    IsNotFoundError (some GoErr.notFound) = true := by
  refine ⟨rfl, rfl, ?_, rfl, rfl⟩
  intro hne
  simp only [IsNotFoundError]
  exact beq_eq_false_iff_ne.mpr hne

/-- C9 witness: the fabricated and the sentinel errors are accepted, nil and
a differently worded error are rejected. -/
theorem isNotFoundError_by_message_witness :
    IsNotFoundError (some GoErr.invalidPlugin) = false ∧
    IsNotFoundError (some (GoErr.mk ("barry: not found"))) = true ∧
    IsNotFoundError none = false :=
  ⟨(isNotFoundError_by_message GoErr.invalidPlugin).2.2.1 (by decide),
    (isNotFoundError_by_message GoErr.invalidPlugin).2.2.2.1,
    (isNotFoundError_by_message GoErr.invalidPlugin).1⟩

end Barry
